import Mathlib

/-!
Verification development for the networked-checkers core
(KneeCapStealer/The-Checker-Mater): a shallow embedding of the game data
model, the move engine (src/game/board.rs, src/game/mod.rs), the wire codec
(src/net/p2p/mod.rs), the host request handler and the client ping task
(src/net/p2p/net_loop.rs, src/net/status.rs), together with theorems about
the behaviour of those functions.
-/

/-- Piece colour, from the slint-generated PieceColor enum used throughout
src/game and src/net. -/
inductive PieceColor where
  | White
  | Black
deriving DecidableEq, BEq

/-- PieceColor::get_opposite from src/game/mod.rs. -/
def PieceColor.get_opposite : PieceColor → PieceColor
  | .White => .Black
  | .Black => .White

/-- PieceData: one board slot. is_active = false denotes an empty square. -/
structure PieceData where
  color : PieceColor
  is_king : Bool
  is_active : Bool
deriving DecidableEq, BEq

/-- PieceData::const_default from src/game/mod.rs: the empty square. -/
def PieceData.const_default : PieceData :=
  { is_king := false, is_active := false, color := PieceColor.White }

/-- Move struct from src/game/mod.rs. The Rust field end is a reserved word
in Lean, so it is spelled endPos here. -/
structure Move where
  index : Nat
  endPos : Nat
  promoted : Bool
  captured : Option (List Nat)
deriving DecidableEq, BEq

/-- GameAction from src/game/mod.rs. -/
inductive GameAction where
  | movePiece (m : Move)
  | stalemate
  | surrender
deriving DecidableEq, BEq

/-- Direction from src/game/mod.rs, with Rust discriminants
UpLeft = -5, UpRight = -4, DownLeft = 3, DownRight = 4 recorded by base. -/
inductive Direction where
  | UpLeft
  | UpRight
  | DownLeft
  | DownRight
deriving DecidableEq, BEq

/-- The numeric discriminant of a Direction (the "*self as i32" part of
Direction::get_value). -/
def Direction.base : Direction → Int
  | .UpLeft => -5
  | .UpRight => -4
  | .DownLeft => 3
  | .DownRight => 4

/-- Direction::values from src/game/mod.rs, in source order. -/
def Direction.values : List Direction :=
  [.UpRight, .UpLeft, .DownLeft, .DownRight]

/-- Direction::get_value from src/game/mod.rs: the signed index delta,
adjusted by the row type of the source square. -/
def Direction.get_value (d : Direction) (index : Nat) : Int :=
  d.base + (((index % 8) / 4 : Nat) : Int)

/-- Direction::is_left from src/game/mod.rs. -/
def Direction.is_left : Direction → Bool
  | .UpLeft => true
  | .DownLeft => true
  | _ => false

/-- Direction::is_right from src/game/mod.rs. -/
def Direction.is_right : Direction → Bool
  | .UpRight => true
  | .DownRight => true
  | _ => false

/-- Direction::is_down from src/game/mod.rs. -/
def Direction.is_down : Direction → Bool
  | .DownRight => true
  | .DownLeft => true
  | _ => false

/-- Direction::is_up from src/game/mod.rs. -/
def Direction.is_up : Direction → Bool
  | .UpRight => true
  | .UpLeft => true
  | _ => false

/-- Result of running a piece of Rust code that may panic.  panicked models
a Rust panic (failed assert, out-of-bounds slice index, unwrap of None);
fuelOut is an artefact of the fuel-bounded embedding of the recursive move
search and never corresponds to a source behaviour. -/
inductive EngineRes (α : Type) where
  | panicked
  | fuelOut
  | ok (val : α)
deriving DecidableEq, BEq

/-- The further-capture loop inside check_move (src/game/board.rs, the
`for direction in Direction::values()` loop in the is_taking branch): step
is check_move applied to the mutated board at the landing square, capIdx is
the square of the piece just jumped (pushed onto each captured list) and
promoting is or-ed into each further move. -/
def furtherLoop (step : Direction → EngineRes (Option (List Move × Bool)))
    (capIdx : Nat) (promoting : Bool) :
    List Direction → Option (List Move) → EngineRes (Option (List Move))
  | [], acc => .ok acc
  | d :: ds, acc =>
    match step d with
    | .panicked => .panicked
    | .fuelOut => .fuelOut
    | .ok none => furtherLoop step capIdx promoting ds acc
    | .ok (some ms) =>
      if !ms.2 then furtherLoop step capIdx promoting ds acc
      else
        let ms2 := ms.1.map fun m =>
          { m with captured := m.captured.map (fun l => l ++ [capIdx]),
                   promoted := m.promoted || promoting }
        furtherLoop step capIdx promoting ds (some (acc.getD [] ++ ms2))

/-- The candidate destination square of check_move: index plus the
direction delta, as a signed value. -/
def nextSquare (index : Nat) (direction : Direction) : Int :=
  (index : Int) + direction.get_value index

/-- The promotion test of check_move (src/game/board.rs line 267): the
local player promotes on squares below 4, the opponent on squares
strictly above 32 - 4. -/
def promotingFlag (is_local_player : Bool) (next : Int) : Bool :=
  (is_local_player && next < 4) || (!is_local_player && next > 32 - 4)

/-- Post-processing of the occupied-destination branch of check_move: on a
capturing recursive result, drop the moves that do not capture. -/
def cmEnemy (child : EngineRes (Option (List Move × Bool))) :
    EngineRes (Option (List Move × Bool)) :=
  match child with
  | .panicked => .panicked
  | .fuelOut => .fuelOut
  | .ok none => .ok none
  | .ok (some next_move) =>
    if !next_move.2 then .ok (some next_move)
    else
      .ok (some (next_move.1.filter (fun mov => mov.captured.isSome),
        next_move.2))

/-- The return value of the is_taking branch of check_move: the chains
found by the further-capture loop, or the single jump ending here when
none continue; always flagged as capturing. -/
def cmTaking (start nextNat index : Nat) (promoting : Bool)
    (flRes : EngineRes (Option (List Move))) :
    EngineRes (Option (List Move × Bool)) :=
  match flRes with
  | .panicked => .panicked
  | .fuelOut => .fuelOut
  | .ok further_moves =>
    .ok (some
      (further_moves.getD
        [{ index := start, endPos := nextNat,
           captured := some [index], promoted := promoting }],
       true))

/-- The return value of the empty-destination, non-taking branch of
check_move: the king continuation result, plus the simple move to this
square unless the continuation found captures. -/
def cmSlide (start nextNat : Nat) (promoting : Bool)
    (kres : EngineRes (Option (List Move × Bool))) :
    EngineRes (Option (List Move × Bool)) :=
  match kres with
  | .panicked => .panicked
  | .fuelOut => .fuelOut
  | .ok kingRes =>
    if !(match kingRes with
         | some next_moves => next_moves.2
         | none => false) then
      .ok (some ((match kingRes with
         | some next_moves => next_moves.1
         | none => []) ++
        [{ index := start, endPos := nextNat,
           captured := none, promoted := promoting }],
        (match kingRes with
         | some next_moves => next_moves.2
         | none => false)))
    else
      .ok (some ((match kingRes with
         | some next_moves => next_moves.1
         | none => []),
        (match kingRes with
         | some next_moves => next_moves.2
         | none => false)))

/-- check_move from src/game/board.rs (the inner recursive function of
Board::get_legal_moves_piece), translated clause by clause, with each
result branch named by a helper above.  pieces is the 32-slot array copy;
indexing past the end of it models the Rust index-out-of-bounds panic.
fuel bounds the recursion depth only. -/
def check_move (fuel : Nat) (pieces : List PieceData) (start index : Nat)
    (local_player_color enemy_color : PieceColor) (is_king : Bool)
    (direction : Direction) (is_taking : Bool) :
    EngineRes (Option (List Move × Bool)) :=
  match fuel with
  | 0 => .fuelOut
  | fuel + 1 =>
    if decide (index % 8 < 4) && direction.is_left && (index % 4 == 0) then
      .ok none
    else if !decide (index % 8 < 4) && direction.is_right &&
        (index % 4 == 3) then
      .ok none
    else if !is_king && direction.is_down &&
        (local_player_color != enemy_color) then
      .ok none
    else if !is_king && direction.is_up &&
        !(local_player_color != enemy_color) then
      .ok none
    else if nextSquare index direction < 0 ||
        nextSquare index direction > (pieces.length : Int) then
      .ok none
    else
      match pieces.get? (nextSquare index direction).toNat with
      | none => .panicked
      | some next_tile =>
        if next_tile.is_active then
          if next_tile.color != enemy_color || is_taking then
            .ok none
          else
            cmEnemy (check_move fuel pieces start
              (nextSquare index direction).toNat local_player_color
              enemy_color is_king direction true)
        else if is_taking then
          cmTaking start (nextSquare index direction).toNat index
            (promotingFlag (local_player_color != enemy_color)
              (nextSquare index direction))
            (furtherLoop
              (fun d => check_move fuel
                (pieces.set index PieceData.const_default) start
                (nextSquare index direction).toNat local_player_color
                enemy_color
                (is_king || promotingFlag
                  (local_player_color != enemy_color)
                  (nextSquare index direction))
                d false)
              index
              (promotingFlag (local_player_color != enemy_color)
                (nextSquare index direction))
              Direction.values none)
        else
          cmSlide start (nextSquare index direction).toNat
            (promotingFlag (local_player_color != enemy_color)
              (nextSquare index direction))
            (if is_king then
              check_move fuel pieces start
                (nextSquare index direction).toNat local_player_color
                enemy_color is_king direction false
            else .ok none)

/-- The per-direction accumulation loop of Board::get_legal_moves_piece:
or the taking flag in, and append a direction result only when its taking
flag agrees with the accumulated flag. -/
def dirFold (step : Direction → EngineRes (Option (List Move × Bool))) :
    List Direction → (Option (List Move) × Bool) →
    EngineRes (Option (List Move) × Bool)
  | [], acc => .ok acc
  | d :: ds, acc =>
    match step d with
    | .panicked => .panicked
    | .fuelOut => .fuelOut
    | .ok none => dirFold step ds acc
    | .ok (some next_moves) =>
      if next_moves.2 == (acc.2 || next_moves.2) then
        dirFold step ds
          (some (acc.1.getD [] ++ next_moves.1), acc.2 || next_moves.2)
      else
        dirFold step ds (acc.1, acc.2 || next_moves.2)

/-- Board::get_legal_moves_piece from src/game/board.rs.  The entry assert
models the Rust assert (panic when index is outside the model); the copy of
the 32 rows into a fixed array is modelled by take 32 (the row_data(i)?
chain returns None when fewer than 32 rows exist). -/
def get_legal_moves_piece (fuel : Nat) (pieces : List PieceData)
    (player_color : PieceColor) (index : Nat) :
    EngineRes (Option (List Move × Bool)) :=
  if pieces.length ≤ index then .panicked
  else
    match pieces.get? index with
    | none => .ok none
    | some piece =>
      if !piece.is_active then .ok none
      else if pieces.length < 32 then .ok none
      else
        match dirFold
            (fun d => check_move fuel (pieces.take 32) index index
              player_color piece.color.get_opposite piece.is_king d false)
            Direction.values (none, false) with
        | .panicked => .panicked
        | .fuelOut => .fuelOut
        | .ok acc =>
          .ok (acc.1.map fun moves =>
            if !acc.2 then (moves, acc.2)
            else (moves.filter (fun mov => mov.captured.isSome), acc.2))

/-- Enumerate list entries with their indices, starting at k: the shape of
the `for index in 0..row_count` loop with row_data(index) lookups. -/
def enumAux {α : Type} : Nat → List α → List (Nat × α)
  | _, [] => []
  | k, a :: l => (k, a) :: enumAux (k + 1) l

/-- The index loop of Board::get_legal_moves: skip pieces of the other
colour, then accumulate exactly like the per-direction loop. -/
def legalFold (fuel : Nat) (pieces : List PieceData) (c : PieceColor) :
    List (Nat × PieceData) → (Option (List Move) × Bool) →
    EngineRes (Option (List Move) × Bool)
  | [], acc => .ok acc
  | (i, piece) :: rest, acc =>
    if piece.color != c then legalFold fuel pieces c rest acc
    else
      match get_legal_moves_piece fuel pieces c i with
      | .panicked => .panicked
      | .fuelOut => .fuelOut
      | .ok none => legalFold fuel pieces c rest acc
      | .ok (some legal_moves) =>
        if legal_moves.2 == (acc.2 || legal_moves.2) then
          legalFold fuel pieces c rest
            (some (acc.1.getD [] ++ legal_moves.1), acc.2 || legal_moves.2)
        else
          legalFold fuel pieces c rest (acc.1, acc.2 || legal_moves.2)

/-- Board::get_legal_moves from src/game/board.rs: all legal moves for the
player colour, with the final forced-capture filter. -/
def get_legal_moves (fuel : Nat) (pieces : List PieceData)
    (player_color : PieceColor) : EngineRes (Option (List Move)) :=
  match legalFold fuel pieces player_color (enumAux 0 pieces) (none, false) with
  | .panicked => .panicked
  | .fuelOut => .fuelOut
  | .ok acc =>
    .ok (acc.1.map fun moves =>
      if !acc.2 then moves
      else moves.filter (fun mov => mov.captured.isSome))

/-- Board::default_setup from src/game/board.rs: 12 enemy pieces on squares
0..11, squares 12..19 empty, 12 player pieces on squares 20..31. -/
def default_setup (player_color : PieceColor) : List PieceData :=
  let enemy_color := player_color.get_opposite
  List.replicate 12
      { color := enemy_color, is_active := true, is_king := false } ++
    ((List.range 32).drop 12).map (fun i =>
      if i < 20 then PieceData.const_default
      else { is_active := true, color := player_color, is_king := false })

/-- Move::reverse from src/game/mod.rs: mirror a move through the point
symmetry of the board. Rust computes 31 - i on usize; on the square domain
0..31 that agrees with truncated Nat subtraction used here. -/
def Move.reverse (m : Move) : Move :=
  { index := 31 - m.index,
    endPos := 31 - m.endPos,
    promoted := m.promoted,
    captured := m.captured.map (fun captured => captured.map (fun p => 31 - p)) }

/-- The action dispatch of Context::wait_for_opponent (src/game/data.rs):
a MovePiece action from the peer is applied through set_board_move only
after Move::reverse; other actions set no board move. -/
def waitForOpponentMove (action : GameAction) : Option Move :=
  match action with
  | .movePiece mov => some mov.reverse
  | _ => none

/-- PacketError from src/net/net_utils.rs as used by the p2p codec
(messages of data errors are not modelled). -/
inductive PacketError where
  | empty
  | invalidType
  | invalidLength (expected got : Nat)
  | dataError
deriving DecidableEq, BEq

/-- Decode outcome of the wire codec: err models the Rust Err results built
from PacketError, panicked models a Rust panic (out-of-bounds index, the
panicking From<u8> cast, unwrap of an Err). -/
inductive DecodeRes (α : Type) where
  | err (e : PacketError)
  | panicked
  | ok (val : α)
deriving DecidableEq, BEq

/-- One byte is a UTF-8 continuation byte. -/
def utf8Cont (b : Nat) : Bool := decide (0x80 ≤ b ∧ b ≤ 0xBF)

/-- Validity of a byte list as UTF-8, the success condition of Rust
String::from_utf8 (strings are modelled by their UTF-8 byte lists). -/
def utf8Valid : List Nat → Bool
  | [] => true
  | b :: rest =>
    if b ≤ 0x7F then utf8Valid rest
    else if b < 0xC2 then false
    else if b ≤ 0xDF then
      match rest with
      | b1 :: r => utf8Cont b1 && utf8Valid r
      | [] => false
    else if b ≤ 0xEF then
      match rest with
      | b1 :: b2 :: r =>
        (if b = 0xE0 then decide (0xA0 ≤ b1 ∧ b1 ≤ 0xBF)
         else if b = 0xED then decide (0x80 ≤ b1 ∧ b1 ≤ 0x9F)
         else utf8Cont b1) && utf8Cont b2 && utf8Valid r
      | _ => false
    else if b ≤ 0xF4 then
      match rest with
      | b1 :: b2 :: b3 :: r =>
        (if b = 0xF0 then decide (0x90 ≤ b1 ∧ b1 ≤ 0xBF)
         else if b = 0xF4 then decide (0x80 ≤ b1 ∧ b1 ≤ 0x8F)
         else utf8Cont b1) && utf8Cont b2 && utf8Cont b3 && utf8Valid r
      | _ => false
    else false

/-- u16::to_be_bytes, on a Nat holding a u16 value. -/
def u16_to_be_bytes (v : Nat) : List Nat := [(v / 256) % 256, v % 256]

/-- u16::from_be_bytes. -/
def u16_from_be_bytes (b0 b1 : Nat) : Nat := b0 * 256 + b1

/-- GameAction discriminant byte (ToByte for GameAction). -/
def GameAction.to_u8 : GameAction → Nat
  | .movePiece _ => 0
  | .stalemate => 1
  | .surrender => 2

/-- ToPacket for GameAction (src/net/p2p/mod.rs): discriminant, then for
MovePiece the index byte, the end byte and the captured squares, each cast
to u8; the promoted flag is never written. -/
def GameAction.to_packet (a : GameAction) : List Nat :=
  match a with
  | .movePiece move_action =>
    a.to_u8 :: (move_action.index % 256) :: (move_action.endPos % 256) ::
      (match move_action.captured with
       | some captured => captured.map (fun piece => piece % 256)
       | none => [])
  | _ => [a.to_u8]

/-- From<u8> for GameAction (src/net/p2p/mod.rs): a panicking cast; the
snapshot builds the placeholder move without promotion data, so promoted is
false. -/
def GameAction.fromByte : Nat → DecodeRes GameAction
  | 0 => .ok (.movePiece { index := 0, endPos := 0, captured := none, promoted := false })
  | 1 => .ok .stalemate
  | 2 => .ok .surrender
  | _ => .panicked

/-- FromPacket for GameAction (src/net/p2p/mod.rs): reads byte 1 into a
variable named to and byte 2 into from, then calls move_piece(from, to,
captured); no promoted byte exists on the wire. -/
def GameAction.from_packet (packet : List Nat) : DecodeRes GameAction :=
  match packet with
  | [] => .err (.invalidLength 1 0)
  | b0 :: rest =>
    match GameAction.fromByte b0 with
    | .panicked => .panicked
    | .err e => .err e
    | .ok (.movePiece _) =>
      match rest with
      | b1 :: b2 :: rest2 =>
        let toByte := b1
        let fromByte := b2
        let captured : Option (List Nat) :=
          if rest2.isEmpty then none else some rest2
        .ok (.movePiece { index := fromByte, endPos := toByte,
                          captured := captured, promoted := false })
      | _ => .err (.invalidLength 4 packet.length)
    | .ok .surrender =>
      if packet.length != 1 then .err (.invalidLength 1 packet.length)
      else .ok .surrender
    | .ok .stalemate =>
      if packet.length != 1 then .err (.invalidLength 1 packet.length)
      else .ok .stalemate

/-- P2pRequestPacket from src/net/p2p/mod.rs; join_code and username are
the UTF-8 byte lists of the Rust Strings. -/
inductive P2pRequestPacket where
  | ping
  | connect (join_code username : List Nat)
  | resync
  | gameAction (action : GameAction)
deriving DecidableEq, BEq

/-- ToByte for P2pRequestPacket. -/
def P2pRequestPacket.to_u8 : P2pRequestPacket → Nat
  | .ping => 1
  | .connect _ _ => 2
  | .resync => 3
  | .gameAction _ => 4

/-- ToPacket for P2pRequestPacket. -/
def P2pRequestPacket.to_packet (p : P2pRequestPacket) : List Nat :=
  match p with
  | .ping => [p.to_u8]
  | .connect join_code username => p.to_u8 :: (join_code ++ username)
  | .resync => [p.to_u8]
  | .gameAction action => p.to_u8 :: action.to_packet

/-- FromPacket for P2pRequestPacket: the Connect arm takes a fixed 12-byte
join code (bytes 1..13) and the remainder as username; the GameAction arm
unwraps the inner decode, panicking on its error. -/
def P2pRequestPacket.from_packet (packet : List Nat) :
    DecodeRes P2pRequestPacket :=
  match packet with
  | [] => .err .empty
  | b0 :: rest =>
    match b0 with
    | 1 => .ok .ping
    | 2 =>
      if packet.length < 14 then .err (.invalidLength 14 packet.length)
      else
        let join_code := rest.take 12
        let username := rest.drop 12
        if !utf8Valid join_code then .err .dataError
        else if !utf8Valid username then .err .dataError
        else .ok (.connect join_code username)
    | 3 => .ok .resync
    | 4 =>
      if packet.length < 2 then .err (.invalidLength 2 packet.length)
      else
        match GameAction.from_packet rest with
        | .ok action => .ok (.gameAction action)
        | _ => .panicked
    | _ => .err .dataError

/-- P2pRequest frame from src/net/p2p/mod.rs. -/
structure P2pRequest where
  session_id : Nat
  transaction_id : Nat
  packet : P2pRequestPacket
deriving DecidableEq, BEq

/-- ToPacket for P2pRequest: 0, big-endian session id, big-endian
transaction id, payload. -/
def P2pRequest.to_packet (r : P2pRequest) : List Nat :=
  0 :: (u16_to_be_bytes r.session_id ++ u16_to_be_bytes r.transaction_id ++
    r.packet.to_packet)

/-- FromPacket for P2pRequest. -/
def P2pRequest.from_packet (packet : List Nat) : DecodeRes P2pRequest :=
  if packet.length < 6 then .err (.invalidLength 6 packet.length)
  else
    match packet with
    | b0 :: b1 :: b2 :: b3 :: b4 :: rest =>
      if b0 != 0 then .err .invalidType
      else
        match P2pRequestPacket.from_packet rest with
        | .ok p =>
          .ok { session_id := u16_from_be_bytes b1 b2,
                transaction_id := u16_from_be_bytes b3 b4, packet := p }
        | .err e => .err e
        | .panicked => .panicked
    | _ => .err (.invalidLength 6 packet.length)

/-- P2pError from src/net/p2p/mod.rs. -/
inductive P2pError where
  | InvalidBoard
  | InvalidJoinCode
  | InvalidSessionId
  | FullGameSession
  | WrongDirection
deriving DecidableEq, BEq

/-- ToByte for P2pError. -/
def P2pError.to_u8 : P2pError → Nat
  | .InvalidBoard => 0
  | .InvalidJoinCode => 1
  | .InvalidSessionId => 2
  | .FullGameSession => 3
  | .WrongDirection => 4

/-- TryFrom<u8> for P2pError; none models the Err case. -/
def P2pError.tryFrom : Nat → Option P2pError
  | 0 => some .InvalidBoard
  | 1 => some .InvalidJoinCode
  | 2 => some .InvalidSessionId
  | 3 => some .FullGameSession
  | 4 => some .WrongDirection
  | _ => none

/-- ToByte for PieceColor. -/
def PieceColor.to_u8 : PieceColor → Nat
  | .White => 1
  | .Black => 2

/-- TryFrom<u8> for PieceColor. -/
def PieceColor.tryFrom : Nat → Option PieceColor
  | 1 => some .White
  | 2 => some .Black
  | _ => none

/-- ToByte for PieceData (src/net/p2p/mod.rs): the source returns the zero
byte when is_active is true and packs colour and king bits otherwise. -/
def PieceData.to_u8 (p : PieceData) : Nat :=
  if p.is_active then 0
  else
    let byte : Nat := match p.color with
      | .White => 0b001
      | .Black => 0b010
    if p.is_king then byte ||| 0b100 else byte

/-- TryFrom<u8> for PieceData (src/net/p2p/mod.rs): 0 decodes to the empty
slot; otherwise the two low bits must have exactly one bit set (values 1 or
2); the king bit is compared against 1 after masking with 0b100, as in the
source. -/
def PieceData.tryFrom (value : Nat) : Option PieceData :=
  if value = 0 then
    some { color := .White, is_active := false, is_king := false }
  else if value &&& 0b11 == 1 || value &&& 0b11 == 2 then
    let color := if value &&& 0b01 == 1 then PieceColor.White
      else PieceColor.Black
    let is_king := value &&& 0b100 == 1
    some { color := color, is_active := true, is_king := is_king }
  else none

/-- Decode a board snapshot byte by byte; the first invalid piece byte
aborts (the early return of the Resync decode loop). -/
def decodeBoard : List Nat → Option (List PieceData)
  | [] => some []
  | b :: rest =>
    match PieceData.tryFrom b with
    | none => none
    | some piece => (decodeBoard rest).map (fun l => piece :: l)

/-- P2pResponsePacket from src/net/p2p/mod.rs. -/
inductive P2pResponsePacket where
  | error (kind : P2pError)
  | pong
  | connect (client_color : PieceColor) (host_username : List Nat)
  | resync (board : List PieceData)
  | acknowledge
deriving DecidableEq, BEq

/-- ToByte for P2pResponsePacket. -/
def P2pResponsePacket.to_u8 : P2pResponsePacket → Nat
  | .error _ => 0
  | .pong => 1
  | .connect _ _ => 2
  | .resync _ => 3
  | .acknowledge => 4

/-- ToPacket for P2pResponsePacket; a Resync body is one packed piece byte
per board entry. -/
def P2pResponsePacket.to_packet (p : P2pResponsePacket) : List Nat :=
  match p with
  | .error kind => [p.to_u8, kind.to_u8]
  | .pong => [p.to_u8]
  | .connect client_color host_username =>
    p.to_u8 :: client_color.to_u8 :: host_username
  | .resync board => p.to_u8 :: board.map PieceData.to_u8
  | .acknowledge => [p.to_u8]

/-- FromPacket for P2pResponsePacket; note the Resync arm requires at least
65 bytes in total (a 64-byte board body). -/
def P2pResponsePacket.from_packet (packet : List Nat) :
    DecodeRes P2pResponsePacket :=
  match packet with
  | [] => .err .empty
  | b0 :: rest =>
    match b0 with
    | 0 =>
      if packet.length != 2 then .err (.invalidLength 2 packet.length)
      else
        match rest with
        | [b1] =>
          match P2pError.tryFrom b1 with
          | some kind => .ok (.error kind)
          | none => .err .dataError
        | _ => .err (.invalidLength 2 packet.length)
    | 1 => .ok .pong
    | 2 =>
      if packet.length < 3 then .err (.invalidLength 2 packet.length)
      else
        match rest with
        | b1 :: host_username =>
          match PieceColor.tryFrom b1 with
          | none => .err .dataError
          | some client_color =>
            if utf8Valid host_username then
              .ok (.connect client_color host_username)
            else .err .dataError
        | [] => .err (.invalidLength 2 packet.length)
    | 3 =>
      if packet.length < 65 then .err (.invalidLength 65 packet.length)
      else
        match decodeBoard rest with
        | some board => .ok (.resync board)
        | none => .err .dataError
    | 4 => .ok .acknowledge
    | _ => .err .dataError

/-- P2pResponse frame from src/net/p2p/mod.rs. -/
structure P2pResponse where
  session_id : Nat
  transaction_id : Nat
  packet : P2pResponsePacket
deriving DecidableEq, BEq

/-- ToPacket for P2pResponse: 1, big-endian session id, big-endian
transaction id, payload. -/
def P2pResponse.to_packet (r : P2pResponse) : List Nat :=
  1 :: (u16_to_be_bytes r.session_id ++ u16_to_be_bytes r.transaction_id ++
    r.packet.to_packet)

/-- FromPacket for P2pResponse. -/
def P2pResponse.from_packet (packet : List Nat) : DecodeRes P2pResponse :=
  if packet.length < 6 then .err (.invalidLength 6 packet.length)
  else
    match packet with
    | b0 :: b1 :: b2 :: b3 :: b4 :: rest =>
      if b0 != 1 then .err .invalidType
      else
        match P2pResponsePacket.from_packet rest with
        | .ok p =>
          .ok { session_id := u16_from_be_bytes b1 b2,
                transaction_id := u16_from_be_bytes b3 b4, packet := p }
        | .err e => .err e
        | .panicked => .panicked
    | _ => .err (.invalidLength 6 packet.length)

/-- P2pPacket from src/net/p2p/mod.rs. -/
inductive P2pPacket where
  | request (req : P2pRequest)
  | response (resp : P2pResponse)
deriving DecidableEq, BEq

/-- ToPacket for P2pPacket. -/
def P2pPacket.to_packet : P2pPacket → List Nat
  | .request req => req.to_packet
  | .response resp => resp.to_packet

/-- FromPacket for P2pPacket: dispatch on byte 0; indexing packet[0] on an
empty buffer panics in the source. -/
def P2pPacket.from_packet (packet : List Nat) : DecodeRes P2pPacket :=
  match packet with
  | [] => .panicked
  | b0 :: _ =>
    match b0 with
    | 0 =>
      match P2pRequest.from_packet packet with
      | .ok req => .ok (.request req)
      | .err e => .err e
      | .panicked => .panicked
    | 1 =>
      match P2pResponse.from_packet packet with
      | .ok resp => .ok (.response resp)
      | .err e => .err e
      | .panicked => .panicked
    | _ => .err .invalidType

/-- ConnectionStatus from src/net/status.rs. -/
inductive ConnectionStatus where
  | Disconnected
  | PendingConnection
  | Reconnecting (tries : Nat)
  | Connected (ping : Nat)
deriving DecidableEq, BEq

/-- ConnectionStatus::connected: Connected with ping 0. -/
def ConnectionStatus.connected : ConnectionStatus := .Connected 0

/-- ConnectionStatus::reconnecting: Reconnecting with tries 0. -/
def ConnectionStatus.reconnecting : ConnectionStatus := .Reconnecting 0

/-- ConnectionStatus::is_connected. -/
def ConnectionStatus.is_connected : ConnectionStatus → Bool
  | .Connected _ => true
  | _ => false

/-- ConnectionStatus::is_reconnecting. -/
def ConnectionStatus.is_reconnecting : ConnectionStatus → Bool
  | .Reconnecting _ => true
  | _ => false

/-- ConnectionStatus::can_send. -/
def ConnectionStatus.can_send : ConnectionStatus → Bool
  | .Disconnected => false
  | .PendingConnection => true
  | .Reconnecting _ => true
  | .Connected _ => true

/-- CONNECT_SESSION_ID from src/net/status.rs, the sentinel session id. -/
def CONNECT_SESSION_ID : Nat := 0x15f4

/-- RECONNECT_TRIES from src/net/p2p/net_loop.rs, the retry budget. -/
def RECONNECT_TRIES : Nat := 10

/-- One iteration of the client ping task (src/net/p2p/net_loop.rs) in
which wait_for_response times out, acting on the connection status and the
stored peer address.  The two leading guards are the continue conditions at
the top of the loop (no ping is attempted when the status is neither
Connected nor Reconnecting, or when no peer address is stored); tries is a
u8 and its increment wraps at 256. -/
def clientPingTimeout (st : ConnectionStatus × Option Unit) :
    ConnectionStatus × Option Unit :=
  if !(st.1.is_connected || st.1.is_reconnecting) then st
  else if st.2.isNone then st
  else
    match st.1 with
    | .Reconnecting tries =>
      if RECONNECT_TRIES ≤ tries then (.Disconnected, none)
      else (.Reconnecting ((tries + 1) % 256), st.2)
    | _ => (.Reconnecting 0, st.2)

/-- N consecutive timed-out pings of the client ping task. -/
def pingTimeoutIter : Nat → (ConnectionStatus × Option Unit) →
    (ConnectionStatus × Option Unit)
  | 0, st => st
  | n + 1, st => pingTimeoutIter n (clientPingTimeout st)

/-- The connection-related state of the host process (the CONNECTION_DATA
record of src/net/status.rs plus the inbound game-action queue); peer
addresses are abstracted to Nat. -/
structure HostState where
  status : ConnectionStatus
  other_addr : Option Nat
  other_username : Option (List Nat)
  join_code : Option (List Nat)
  session_id : Nat
  inbox : List GameAction
deriving DecidableEq, BEq

/-- UTF-8 bytes of the literal host username answered in the Connect
success branch of host_network_loop. -/
def hostUsernameAtle : List Nat := [65, 116, 108, 101]

/-- The request-dispatch of the host receive task (host_network_loop in
src/net/p2p/net_loop.rs): given the current state, the sender address and a
fresh random session id for the success branch, produce the updated state
and the queued response.  none models the panic of
get_join_code().unwrap() when no join code is stored.  The response reads
the session id after the branch has possibly updated it. -/
def hostHandleRequest (st : HostState) (addr : Nat) (new_session_id : Nat)
    (req : P2pRequest) : Option (HostState × P2pResponse) :=
  match req.packet with
  | .ping =>
    some (st, { session_id := st.session_id,
                transaction_id := req.transaction_id, packet := .pong })
  | .connect join_code _username =>
    if st.other_addr.isSome then
      some (st, { session_id := st.session_id,
                  transaction_id := req.transaction_id,
                  packet := .error .FullGameSession })
    else
      match st.join_code with
      | none => none
      | some stored =>
        if join_code != stored then
          some (st, { session_id := st.session_id,
                      transaction_id := req.transaction_id,
                      packet := .error .InvalidJoinCode })
        else if req.session_id != CONNECT_SESSION_ID then
          some (st, { session_id := st.session_id,
                      transaction_id := req.transaction_id,
                      packet := .error .InvalidSessionId })
        else
          let st2 := { st with session_id := new_session_id,
                               status := ConnectionStatus.connected,
                               other_addr := some addr }
          some (st2, { session_id := st2.session_id,
                       transaction_id := req.transaction_id,
                       packet := .connect PieceColor.White hostUsernameAtle })
  | .resync =>
    some (st, { session_id := st.session_id,
                transaction_id := req.transaction_id,
                packet := .resync [] })
  | .gameAction action =>
    let st2 := { st with inbox := st.inbox ++ [action] }
    some (st2, { session_id := st2.session_id,
                 transaction_id := req.transaction_id,
                 packet := .acknowledge })


/-- An empty 32-slot board. -/
def emptyBoard : List PieceData := List.replicate 32 PieceData.const_default

/-- Board for the C2 witness: a White piece on square 21 facing a Black
piece on square 17 with square 12 free, so a capture is available. -/
def c2Board : List PieceData :=
  (emptyBoard.set 21 { color := .White, is_king := false, is_active := true }).set 17
    { color := .Black, is_king := false, is_active := true }

/-- Board exercising promotion at square 28: a single enemy piece on 24. -/
def c4Board : List PieceData :=
  emptyBoard.set 24 { color := .Black, is_king := false, is_active := true }

/-- Board exercising the bounds check at square 32: a single enemy piece
on 28. -/
def c5Board : List PieceData :=
  emptyBoard.set 28 { color := .Black, is_king := false, is_active := true }

/-- The legal moves computed for the opening board laid out by
default_setup, for the given local colour. -/
def openingMovesFor (c : PieceColor) : List Move :=
  match get_legal_moves 64 (default_setup c) c with
  | .ok (some ms) => ms
  | _ => []

/-- The seven single-step advances available on the opening board, in the
order the engine produces them. -/
def c7OpeningMoves : List Move :=
  [{ index := 20, endPos := 17, promoted := false, captured := none },
   { index := 20, endPos := 16, promoted := false, captured := none },
   { index := 21, endPos := 18, promoted := false, captured := none },
   { index := 21, endPos := 17, promoted := false, captured := none },
   { index := 22, endPos := 19, promoted := false, captured := none },
   { index := 22, endPos := 18, promoted := false, captured := none },
   { index := 23, endPos := 19, promoted := false, captured := none }]

/-- A MovePiece request used to exercise the codec round trip. -/
def c1Packet : P2pPacket :=
  .request { session_id := 0, transaction_id := 0,
             packet := .gameAction (.movePiece
               { index := 1, endPos := 2, promoted := false,
                 captured := none }) }

/-- The value actually produced by decoding the encoding of c1Packet:
index and end are exchanged. -/
def c1Decoded : P2pPacket :=
  .request { session_id := 0, transaction_id := 0,
             packet := .gameAction (.movePiece
               { index := 2, endPos := 1, promoted := false,
                 captured := none }) }

/-- A host state with no bound peer and join code [1, 2]. -/
def c8State : HostState :=
  { status := .Disconnected, other_addr := none, other_username := none,
    join_code := some [1, 2], session_id := 7, inbox := [] }

/-- The client state machine state at the start of the C6 scenario:
healthy connection with a stored peer address. -/
def c6Start : ConnectionStatus × Option Unit := (.Connected 0, some ())

/-- A move whose captured field, when present, holds a non-empty list. -/
def capNE (m : Move) : Prop := ∀ l, m.captured = some l → l ≠ []

lemma furtherLoop_capNE
    (step : Direction → EngineRes (Option (List Move × Bool)))
    (capIdx : Nat) (promoting : Bool) :
    ∀ (ds : List Direction) (acc : Option (List Move)) (fm : List Move),
    furtherLoop step capIdx promoting ds acc = .ok (some fm) →
    (∀ ms, acc = some ms → ∀ m ∈ ms, capNE m) →
    ∀ m ∈ fm, capNE m := by
  intro ds
  induction ds with
  | nil =>
    intro acc fm h hacc
    simp only [furtherLoop, EngineRes.ok.injEq] at h
    exact hacc fm h
  | cons d ds ih =>
    intro acc fm h hacc
    rw [furtherLoop] at h
    cases hstep : step d with
    | panicked => rw [hstep] at h; exact absurd h (by simp)
    | fuelOut => rw [hstep] at h; exact absurd h (by simp)
    | ok o =>
      rw [hstep] at h
      cases o with
      | none => exact ih _ _ h hacc
      | some ms =>
        by_cases hms : ms.2
        · simp only [hms, Bool.not_true, Bool.false_eq_true, if_false] at h
          refine ih _ _ h ?_
          intro ms2 hms2 m hm
          cases hms2
          rcases List.mem_append.mp hm with hin | hin
          · cases hacc2 : acc with
            | none => simp [hacc2] at hin
            | some ms0 =>
              exact hacc ms0 hacc2 m (by simpa [hacc2] using hin)
          · rcases List.mem_map.mp hin with ⟨m0, _, rfl⟩
            intro l hl
            rcases hcap : m0.captured with _ | l0
            · simp [hcap] at hl
            · simp only [hcap, Option.map_some] at hl
              cases hl
              simp
        · simp only [hms, Bool.not_false, if_true] at h
          exact ih _ _ h hacc

lemma cmEnemy_capNE (child : EngineRes (Option (List Move × Bool)))
    (hchild : ∀ r, child = .ok (some r) → ∀ m ∈ r.1, capNE m)
    (res : List Move × Bool) (h : cmEnemy child = .ok (some res)) :
    ∀ m ∈ res.1, capNE m := by
  cases child with
  | panicked => exact absurd h (by simp [cmEnemy])
  | fuelOut => exact absurd h (by simp [cmEnemy])
  | ok o =>
    cases o with
    | none => exact absurd h (by simp [cmEnemy])
    | some next_move =>
      rw [cmEnemy] at h
      split at h
      · cases h
        exact hchild _ rfl
      · cases h
        intro m hm
        exact hchild _ rfl m (List.mem_filter.mp hm).1

lemma cmTaking_capNE (start nextNat index : Nat) (promoting : Bool)
    (flRes : EngineRes (Option (List Move)))
    (hfl : ∀ fm, flRes = .ok (some fm) → ∀ m ∈ fm, capNE m)
    (res : List Move × Bool)
    (h : cmTaking start nextNat index promoting flRes = .ok (some res)) :
    ∀ m ∈ res.1, capNE m := by
  cases flRes with
  | panicked => exact absurd h (by simp [cmTaking])
  | fuelOut => exact absurd h (by simp [cmTaking])
  | ok further_moves =>
    rw [cmTaking] at h
    cases h
    cases further_moves with
    | none =>
      intro m hm
      rcases List.mem_singleton.mp hm with rfl
      intro l hl
      cases hl
      simp
    | some fm =>
      intro m hm
      exact hfl fm rfl m hm

lemma cmSlide_capNE (start nextNat : Nat) (promoting : Bool)
    (kres : EngineRes (Option (List Move × Bool)))
    (hk : ∀ r, kres = .ok (some r) → ∀ m ∈ r.1, capNE m)
    (res : List Move × Bool)
    (h : cmSlide start nextNat promoting kres = .ok (some res)) :
    ∀ m ∈ res.1, capNE m := by
  cases kres with
  | panicked => exact absurd h (by simp [cmSlide])
  | fuelOut => exact absurd h (by simp [cmSlide])
  | ok kingRes =>
    simp only [cmSlide] at h
    have hmoves : ∀ m ∈ (match kingRes with
        | some next_moves => next_moves.1
        | none => ([] : List Move)), capNE m := by
      cases kingRes with
      | none => intro m hm; simp at hm
      | some next_moves => exact hk _ rfl
    split at h
    · cases h
      intro m hm
      rcases List.mem_append.mp hm with hin | hin
      · exact hmoves m hin
      · rcases List.mem_singleton.mp hin with rfl
        intro l hl
        simp at hl
    · cases h
      exact hmoves

lemma check_move_capNE :
    ∀ (fuel : Nat) (pieces : List PieceData) (start index : Nat)
    (lc ec : PieceColor) (k : Bool) (d : Direction) (t : Bool)
    (res : List Move × Bool),
    check_move fuel pieces start index lc ec k d t = .ok (some res) →
    ∀ m ∈ res.1, capNE m := by
  intro fuel
  induction fuel with
  | zero =>
    intro pieces start index lc ec k d t res h
    exact absurd h (by simp [check_move])
  | succ fuel ih =>
    intro pieces start index lc ec k d t res h
    rw [check_move] at h
    split at h
    · exact absurd h (by simp)
    split at h
    · exact absurd h (by simp)
    split at h
    · exact absurd h (by simp)
    split at h
    · exact absurd h (by simp)
    split at h
    · exact absurd h (by simp)
    cases hget : pieces.get? (nextSquare index d).toNat with
    | none => simp only [hget] at h; exact absurd h (by simp)
    | some next_tile =>
      simp only [hget] at h
      split at h
      · -- occupied destination
        split at h
        · exact absurd h (by simp)
        · exact cmEnemy_capNE _ (fun r hr => ih _ _ _ _ _ _ _ _ r hr) res h
      · split at h
        · -- taking branch
          refine cmTaking_capNE _ _ _ _ _ ?_ res h
          intro fm hfm
          refine furtherLoop_capNE _ _ _ _ _ _ hfm ?_
          intro ms hms
          simp at hms
        · -- slide branch
          refine cmSlide_capNE _ _ _ _ ?_ res h
          intro r hr
          split at hr
          · exact ih _ _ _ _ _ _ _ _ r hr
          · exact absurd hr (by simp)

lemma dirFold_capNE (step : Direction → EngineRes (Option (List Move × Bool))) :
    ∀ (ds : List Direction) (acc : Option (List Move) × Bool)
    (res : Option (List Move) × Bool),
    (∀ d r, step d = .ok (some r) → ∀ m ∈ r.1, capNE m) →
    (∀ ms, acc.1 = some ms → ∀ m ∈ ms, capNE m) →
    dirFold step ds acc = .ok res →
    ∀ ms, res.1 = some ms → ∀ m ∈ ms, capNE m := by
  intro ds
  induction ds with
  | nil =>
    intro acc res hstep hacc h
    simp only [dirFold, EngineRes.ok.injEq] at h
    cases h
    exact hacc
  | cons d ds ih =>
    intro acc res hstep hacc h
    rw [dirFold] at h
    cases hs : step d with
    | panicked => simp only [hs] at h; exact absurd h (by simp)
    | fuelOut => simp only [hs] at h; exact absurd h (by simp)
    | ok o =>
      cases o with
      | none => simp only [hs] at h; exact ih _ _ hstep hacc h
      | some next_moves =>
        simp only [hs] at h
        split at h
        · refine ih _ _ hstep ?_ h
          intro ms hms m hm
          simp only at hms
          cases hms
          rcases List.mem_append.mp hm with hin | hin
          · cases hacc1 : acc.1 with
            | none => simp [hacc1] at hin
            | some ms0 => exact hacc ms0 hacc1 m (by simpa [hacc1] using hin)
          · exact hstep d _ hs m hin
        · refine ih _ _ hstep ?_ h
          intro ms hms
          exact hacc ms hms


lemma get_legal_moves_piece_capNE (fuel : Nat) (pieces : List PieceData)
    (c : PieceColor) (i : Nat) (r : List Move × Bool)
    (h : get_legal_moves_piece fuel pieces c i = .ok (some r)) :
    ∀ m ∈ r.1, capNE m := by
  rw [get_legal_moves_piece] at h
  split at h
  · exact absurd h (by simp)
  split at h
  · exact absurd h (by simp)
  rename_i piece heq
  split at h
  · exact absurd h (by simp)
  split at h
  · exact absurd h (by simp)
  split at h
  · exact absurd h (by simp)
  · exact absurd h (by simp)
  rename_i acc hdf
  simp only [EngineRes.ok.injEq] at h
  cases hacc1 : acc.1 with
  | none => rw [hacc1] at h; simp at h
  | some ms0 =>
    rw [hacc1] at h
    simp only [Option.map_some', Option.some.injEq] at h
    have hms0 : ∀ m ∈ ms0, capNE m := by
      refine dirFold_capNE _ _ _ _ ?_ ?_ hdf ms0 hacc1
      · intro d r2 hr2
        exact check_move_capNE _ _ _ _ _ _ _ _ _ _ hr2
      · intro ms hms
        simp at hms
    cases h
    split
    · exact hms0
    · intro m hm
      exact hms0 m (List.mem_filter.mp hm).1

lemma legalFold_capNE (fuel : Nat) (pieces : List PieceData) (c : PieceColor) :
    ∀ (l : List (Nat × PieceData)) (acc res : Option (List Move) × Bool),
    (∀ ms, acc.1 = some ms → ∀ m ∈ ms, capNE m) →
    legalFold fuel pieces c l acc = .ok res →
    ∀ ms, res.1 = some ms → ∀ m ∈ ms, capNE m := by
  intro l
  induction l with
  | nil =>
    intro acc res hacc h
    simp only [legalFold, EngineRes.ok.injEq] at h
    cases h
    exact hacc
  | cons e rest ih =>
    intro acc res hacc h
    obtain ⟨i, piece⟩ := e
    rw [legalFold] at h
    split at h
    · exact ih _ _ hacc h
    split at h
    · exact absurd h (by simp)
    · exact absurd h (by simp)
    · exact ih _ _ hacc h
    rename_i legal_moves hg
    split at h
    · refine ih _ _ ?_ h
      intro ms hms m hm
      simp only at hms
      cases hms
      rcases List.mem_append.mp hm with hin | hin
      · cases hacc1 : acc.1 with
        | none => simp [hacc1] at hin
        | some ms0 => exact hacc ms0 hacc1 m (by simpa [hacc1] using hin)
      · exact get_legal_moves_piece_capNE _ _ _ _ _ hg m hin
    · refine ih _ _ ?_ h
      intro ms hms
      exact hacc ms hms

lemma legalFold_taking_mono (fuel : Nat) (pieces : List PieceData)
    (c : PieceColor) :
    ∀ (l : List (Nat × PieceData)) (acc res : Option (List Move) × Bool),
    legalFold fuel pieces c l acc = .ok res → acc.2 = true → res.2 = true := by
  intro l
  induction l with
  | nil =>
    intro acc res h hacc
    simp only [legalFold, EngineRes.ok.injEq] at h
    cases h
    exact hacc
  | cons e rest ih =>
    intro acc res h hacc
    obtain ⟨i, piece⟩ := e
    rw [legalFold] at h
    split at h
    · exact ih _ _ h hacc
    split at h
    · exact absurd h (by simp)
    · exact absurd h (by simp)
    · exact ih _ _ h hacc
    rename_i legal_moves hg
    split at h
    · exact ih _ _ h (by simp [hacc])
    · exact ih _ _ h (by simp [hacc])

lemma legalFold_taking_trigger (fuel : Nat) (pieces : List PieceData)
    (c : PieceColor) :
    ∀ (l : List (Nat × PieceData)) (acc res : Option (List Move) × Bool)
    (i : Nat) (p : PieceData) (ms : List Move),
    (i, p) ∈ l → p.color = c →
    get_legal_moves_piece fuel pieces c i = .ok (some (ms, true)) →
    legalFold fuel pieces c l acc = .ok res → res.2 = true := by
  intro l
  induction l with
  | nil =>
    intro acc res i p ms hmem
    exact absurd hmem (List.not_mem_nil _)
  | cons e rest ih =>
    intro acc res i p ms hmem hcol hg h
    obtain ⟨j, piece⟩ := e
    rcases List.mem_cons.mp hmem with heq | hin
    · cases heq
      rw [legalFold] at h
      rw [if_neg (by rw [hcol]; cases c <;> decide)] at h
      simp only [hg, Bool.or_true, beq_self_eq_true, if_true] at h
      exact legalFold_taking_mono fuel pieces c _ _ _ h rfl
    · rw [legalFold] at h
      split at h
      · exact ih _ _ _ _ _ hin hcol hg h
      split at h
      · exact absurd h (by simp)
      · exact absurd h (by simp)
      · exact ih _ _ _ _ _ hin hcol hg h
      rename_i legal_moves hg2
      split at h
      · exact ih _ _ _ _ _ hin hcol hg h
      · exact ih _ _ _ _ _ hin hcol hg h

lemma mem_enumAux {α : Type} :
    ∀ (l : List α) (k i : Nat) (a : α),
    l.get? i = some a → (k + i, a) ∈ enumAux k l := by
  intro l
  induction l with
  | nil => intro k i a h; simp [List.get?] at h
  | cons b rest ih =>
    intro k i a h
    cases i with
    | zero =>
      simp only [List.get?, Option.some.injEq] at h
      cases h
      simp [enumAux]
    | succ i =>
      simp only [List.get?] at h
      have hmem := ih (k + 1) i a h
      simp only [enumAux, List.mem_cons]
      right
      have harith : k + 1 + i = k + (i + 1) := by omega
      rw [harith] at hmem
      exact hmem

lemma mem_enumAux_zero {α : Type} (l : List α) (i : Nat) (a : α)
    (h : l.get? i = some a) : (i, a) ∈ enumAux 0 l := by
  have hmem := mem_enumAux l 0 i a h
  simpa using hmem

/-- Claim C2: whenever some piece of the moving colour has an available
capture (its per-piece query returns a capturing result) and
get_legal_moves returns a move vector, every returned move carries a
non-empty captured list, so no non-capturing move of that colour appears
in the result. -/
theorem get_legal_moves_forced_capture_only (fuel : Nat)
    (pieces : List PieceData) (c : PieceColor) (moves : List Move)
    (hcap : ∃ i p ms, pieces.get? i = some p ∧ p.color = c ∧
      get_legal_moves_piece fuel pieces c i = .ok (some (ms, true)))
    (hres : get_legal_moves fuel pieces c = .ok (some moves)) :
    ∀ m ∈ moves, ∃ l, m.captured = some l ∧ l ≠ [] := by
  obtain ⟨i, p, ms, hget, hcol, hglmp⟩ := hcap
  rw [get_legal_moves] at hres
  split at hres
  · exact absurd hres (by simp)
  · exact absurd hres (by simp)
  rename_i acc hfold
  have htak : acc.2 = true :=
    legalFold_taking_trigger fuel pieces c _ _ _ i p ms
      (mem_enumAux_zero pieces i p hget) hcol hglmp hfold
  have hcapne : ∀ ms2, acc.1 = some ms2 → ∀ m ∈ ms2, capNE m := by
    refine legalFold_capNE fuel pieces c _ _ _ ?_ hfold
    intro ms2 hms2
    simp at hms2
  simp only [EngineRes.ok.injEq] at hres
  cases hacc1 : acc.1 with
  | none => rw [hacc1] at hres; simp at hres
  | some ms0 =>
    rw [hacc1] at hres
    simp only [Option.map_some', Option.some.injEq] at hres
    rw [htak] at hres
    simp only [Bool.not_true, Bool.false_eq_true, if_false] at hres
    cases hres
    intro m hm
    have hmf := List.mem_filter.mp hm
    rcases Option.isSome_iff_exists.mp hmf.2 with ⟨l, hl⟩
    exact ⟨l, hl, hcapne ms0 hacc1 m hmf.1 l hl⟩

/-- Witness for the C2 theorem on the concrete board c2Board: the White
piece on 21 must jump the Black piece on 17, and the single returned move
captures it. -/
theorem get_legal_moves_forced_capture_only_witness :
    ∃ l, ({ index := 21, endPos := 12, promoted := false,
            captured := some [17] } : Move).captured = some l ∧ l ≠ [] :=
  get_legal_moves_forced_capture_only 64 c2Board .White
    [{ index := 21, endPos := 12, promoted := false, captured := some [17] }]
    ⟨21, { color := .White, is_king := false, is_active := true },
      [{ index := 21, endPos := 12, promoted := false,
         captured := some [17] }],
      by decide, rfl, by decide⟩
    (by decide)
    { index := 21, endPos := 12, promoted := false, captured := some [17] }
    (by simp)

/-- Claim C7 counterexample: on the standard opening board it is not the
case that each of the four frontmost pieces 20..23 has exactly two legal
destinations; the right-edge piece 23 has only one. -/
theorem opening_piece23_not_two_moves :
    ¬ ∀ i ∈ [20, 21, 22, 23],
      ((openingMovesFor .White).filter (fun m => m.index == i)).length = 2 := by
  decide

/-- Claim C7 amended: for either local colour, get_legal_moves on the
default_setup board returns exactly the seven single-step diagonal
advances of row 5 into the empty row 4 — pieces 20, 21 and 22 with two
destinations each and the edge piece 23 with one — none capturing and none
promoted. -/
theorem opening_legal_moves_exact :
    get_legal_moves 64 (default_setup .White) .White =
      .ok (some c7OpeningMoves) ∧
    get_legal_moves 64 (default_setup .Black) .Black =
      .ok (some c7OpeningMoves) := by
  constructor <;> decide

/-- Claim C4 (code bug): the enemy move from square 24 to back-rank
square 28 is produced with promoted = false, because the source promotion
test next > 32 - 4 excludes square 28 itself. -/
theorem promotion_missed_on_square_28 :
    get_legal_moves_piece 64 c4Board .White 24 =
      .ok (some ([{ index := 24, endPos := 28, promoted := false,
                    captured := none }], false)) := by
  decide

/-- Claim C5 (code bug): for the enemy piece on square 28 the DownLeft
delta yields candidate square 32; the bounds check lets it through because
it uses next > len instead of next >= len, and the slot read pieces[32]
panics. -/
theorem legal_moves_piece_reads_square_32 :
    get_legal_moves_piece 64 c5Board .White 28 = .panicked := by
  decide

/-- Claim C3 (code bug): to_u8 returns 0 for an active piece and a
non-zero byte for the empty slot — the is_active test is inverted — so
decoding the encoding of an active piece yields the empty slot instead of
the piece. -/
theorem piece_codec_inverted :
    PieceData.to_u8 { color := .White, is_king := false, is_active := true } = 0 ∧
    PieceData.tryFrom 0 =
      some { color := .White, is_king := false, is_active := false } ∧
    PieceData.to_u8
      { color := .White, is_king := false, is_active := false } = 1 ∧
    PieceData.tryFrom (PieceData.to_u8
      { color := .White, is_king := false, is_active := true }) ≠
      some { color := .White, is_king := false, is_active := true } := by
  decide

/-- Claim C1 (code bug): decoding the encoding of a MovePiece request
yields the move with index and end exchanged (the decoder reads byte 1 as
the destination and byte 2 as the origin while the encoder writes origin
then destination), so the round trip is not the identity. -/
theorem movePiece_roundtrip_swaps_index_end :
    P2pPacket.from_packet (P2pPacket.to_packet c1Packet) = .ok c1Decoded ∧
    P2pPacket.from_packet (P2pPacket.to_packet c1Packet) ≠ .ok c1Packet := by
  decide

/-- Claim C9 (code bug): the host answers every Resync request with an
empty board payload rather than a 32-entry snapshot, and the encoded empty
Resync response is rejected by the response decoder, which demands at
least 65 bytes. -/
theorem host_resync_empty_and_rejected :
    (∀ (st : HostState) (addr ns sid tid : Nat),
      hostHandleRequest st addr ns
        { session_id := sid, transaction_id := tid, packet := .resync } =
        some (st, { session_id := st.session_id, transaction_id := tid,
                    packet := .resync [] })) ∧
    P2pResponsePacket.from_packet ((P2pResponsePacket.resync []).to_packet) =
      .err (.invalidLength 65 1) := by
  constructor
  · intro st addr ns sid tid
    rfl
  · decide

/-- Claim C8: a Connect request reaching the host with no bound peer and a
join code different from the stored one is always answered with
Error InvalidJoinCode, and with a peer already bound the host answers
Error FullGameSession regardless of the join code carried. -/
theorem host_connect_wrong_join_code (st : HostState)
    (addr ns sid tid : Nat) (jc un stored : List Nat)
    (hstored : st.join_code = some stored) :
    (st.other_addr = none → jc ≠ stored →
      hostHandleRequest st addr ns
        { session_id := sid, transaction_id := tid,
          packet := .connect jc un } =
        some (st, { session_id := st.session_id, transaction_id := tid,
                    packet := .error .InvalidJoinCode })) ∧
    (∀ a, st.other_addr = some a →
      hostHandleRequest st addr ns
        { session_id := sid, transaction_id := tid,
          packet := .connect jc un } =
        some (st, { session_id := st.session_id, transaction_id := tid,
                    packet := .error .FullGameSession })) := by
  constructor
  · intro hnone hne
    simp only [hostHandleRequest, hnone, Option.isSome_none,
      Bool.false_eq_true, if_false, hstored]
    rw [if_pos (by simpa [bne_iff_ne] using hne)]
  · intro a ha
    simp [hostHandleRequest, ha]

/-- Witness for the C8 theorem on the concrete state c8State: join code
[9] against stored [1, 2] is refused with InvalidJoinCode. -/
theorem host_connect_wrong_join_code_witness :
    hostHandleRequest c8State 99 42
      { session_id := 0, transaction_id := 5,
        packet := .connect [9] [65] } =
      some (c8State, { session_id := 7, transaction_id := 5,
                       packet := .error .InvalidJoinCode }) :=
  (host_connect_wrong_join_code c8State 99 42 0 5 [9] [65] [1, 2] rfl).1
    rfl (by decide)

/-- Claim C6 counterexample: after the first timeout the status is
Reconnecting with tries 0 (not 1), and after 10 consecutive timeouts —
the retry budget — the client is still Reconnecting, not Disconnected. -/
theorem ping_ten_timeouts_not_disconnected :
    pingTimeoutIter 1 c6Start = (.Reconnecting 0, some ()) ∧
    pingTimeoutIter 10 c6Start = (.Reconnecting 9, some ()) ∧
    pingTimeoutIter 10 c6Start ≠ (.Disconnected, none) := by
  decide

/-- Claim C6 amended: from Connected the first timeout yields Reconnecting
with tries 0 and each further timeout increments tries, so after N
consecutive timeouts with 1 ≤ N ≤ 11 the status is Reconnecting with
tries N - 1 — never Disconnected and never Connected — and the 12th
consecutive timeout sets Disconnected and clears the stored peer
address. -/
theorem ping_timeout_trajectory :
    (∀ n, n < 12 → 1 ≤ n →
      pingTimeoutIter n c6Start = (.Reconnecting (n - 1), some ())) ∧
    pingTimeoutIter 12 c6Start = (.Disconnected, none) := by
  decide

/-- Witness for the C6 amended theorem: five consecutive timeouts leave
the client Reconnecting with tries 4. -/
theorem ping_timeout_trajectory_witness :
    pingTimeoutIter 5 c6Start = (.Reconnecting 4, some ()) :=
  ping_timeout_trajectory.1 5 (by decide) (by decide)

lemma mirror_mirror (l : List Nat) (hl : ∀ i ∈ l, i ≤ 31) :
    (l.map (fun i => 31 - i)).map (fun i => 31 - i) = l := by
  induction l with
  | nil => rfl
  | cons a l ih =>
    simp only [List.map_cons, List.cons.injEq]
    constructor
    · exact Nat.sub_sub_self (hl a (by simp))
    · exact ih (fun i hi => hl i (by simp [hi]))

/-- Claim C10: Move::reverse maps index, end and every captured entry i to
31 - i and keeps promoted, hence is an involution on board-range moves;
and a MovePiece action received from the peer sets the board move to the
reversed move. -/
theorem move_reverse_mirror_involution (m : Move)
    (hi : m.index ≤ 31) (he : m.endPos ≤ 31)
    (hc : ∀ i ∈ m.captured.getD [], i ≤ 31) :
    m.reverse.index = 31 - m.index ∧
    m.reverse.endPos = 31 - m.endPos ∧
    m.reverse.promoted = m.promoted ∧
    m.reverse.captured = m.captured.map (fun l => l.map (fun i => 31 - i)) ∧
    m.reverse.reverse = m ∧
    waitForOpponentMove (.movePiece m) = some m.reverse := by
  refine ⟨rfl, rfl, rfl, rfl, ?_, rfl⟩
  obtain ⟨idx, ep, pr, cap⟩ := m
  simp only at hi he hc
  cases cap with
  | none =>
    simp [Move.reverse, Move.mk.injEq, Nat.sub_sub_self hi,
      Nat.sub_sub_self he]
  | some l =>
    have hl : ∀ i ∈ l, i ≤ 31 := by simpa using hc
    simp [Move.reverse, Move.mk.injEq, Nat.sub_sub_self hi,
      Nat.sub_sub_self he, mirror_mirror l hl]

/-- Witness for the C10 theorem at the concrete move 5 → 9 capturing 12:
double reversal restores it and the opponent application uses the
reversed move. -/
theorem move_reverse_mirror_involution_witness :
    ({ index := 5, endPos := 9, promoted := true,
       captured := some [12] } : Move).reverse.reverse =
      { index := 5, endPos := 9, promoted := true, captured := some [12] } ∧
    waitForOpponentMove (.movePiece
      { index := 5, endPos := 9, promoted := true, captured := some [12] }) =
      some ({ index := 5, endPos := 9, promoted := true,
              captured := some [12] } : Move).reverse :=
  ⟨(move_reverse_mirror_involution _ (by decide) (by decide)
      (by decide)).2.2.2.2.1,
   (move_reverse_mirror_involution _ (by decide) (by decide)
      (by decide)).2.2.2.2.2⟩
